import Mathlib

/-!
Verification of the p2p-signage log parser module.

The Python module is embedded shallowly:

* `Json` models the values produced by `json.loads` (floats are carried as
  their source token; they are never compared or computed with in the
  program).
* `jsonParse` models `json.loads` on a string: strict JSON with objects,
  arrays, strings (with the standard escapes), integers, floats, `true`,
  `false`, `null`, and the CPython extras `NaN`/`Infinity`/`-Infinity`.
  Decode failure is `none` (a `json.JSONDecodeError`).
* `matchSending`, `matchReceived`, `matchTransport`, `matchUdpLog` model the
  four anchored regular expressions of `parse_log_file`.  The greedy runs
  (`\d+`, `[\d\.]+`, `[\d\.:]+`) are each followed by a literal outside the
  class, so the backtracking regex semantics coincide with greedy scans.
  `parse_log_file` strips each line before matching, so the matchers are
  only ever applied to stripped lines (no trailing newline; `.` never
  matches a newline, hence the no-newline guards on the `(.*)` captures).
* `processLine` models the body of the `for log in logs` loop: the fallible
  parts (uncaught `KeyError`/`TypeError`/`AttributeError`/`ValueError`
  raised by the Python code) are modelled with `Except PyErr`.
* The renderers are embedded as functions from the record list to their
  printed text; `print_wireshark_style` returns the list of `print`ed
  strings together with the exception it raises, if any, since it prints
  incrementally.
-/

mutual

/-- Python values produced by `json.loads`.  A non-integer numeric literal is
kept as its source token (`floatNum`); the program never does arithmetic or
equality tests on floats, it at most stringifies them.  The array items and
object members are mutual inductives (`JList`, `JMembers`) rather than `List`
so that equality and recursion stay structural. -/
inductive Json where
  | null
  | bool (b : Bool)
  | intNum (n : Int)
  | floatNum (raw : String)
  | str (s : String)
  | arr (items : JList)
  | obj (members : JMembers)
deriving Repr, DecidableEq

/-- The items of a decoded JSON array. -/
inductive JList where
  | nil
  | cons (hd : Json) (tl : JList)
deriving Repr, DecidableEq

/-- The members of a decoded JSON object, in source order. -/
inductive JMembers where
  | nil
  | cons (k : String) (v : Json) (tl : JMembers)
deriving Repr, DecidableEq

end

def JList.ofList : List Json → JList
  | [] => .nil
  | j :: js => .cons j (JList.ofList js)

def JList.toList : JList → List Json
  | .nil => []
  | .cons j js => j :: js.toList

def JMembers.ofList : List (String × Json) → JMembers
  | [] => .nil
  | (k, v) :: kvs => .cons k v (JMembers.ofList kvs)

def JMembers.toList : JMembers → List (String × Json)
  | .nil => []
  | .cons k v kvs => (k, v) :: kvs.toList

/-- Build an array value from a Lean list. -/
def Json.arrL (l : List Json) : Json := .arr (JList.ofList l)

/-- Build an object value from a Lean list of members. -/
def Json.objL (l : List (String × Json)) : Json := .obj (JMembers.ofList l)

/-- The uncaught Python exceptions the module can raise. -/
inductive PyErr where
  | keyError
  | typeError
  | attributeError
  | valueError
deriving Repr, DecidableEq

/-- One Exchange Record, i.e. one entry of `parsed_logs`.  `timestamp` is
microseconds after midnight of "today" (the date part is the same constant
for every record, so only differences ever matter).  `source` and `type` can
be arbitrary decoded payload values in Python, so they are `Json`;
`destination`, `protocol` and `info` are always `str` in every branch. -/
structure Record where
  timestamp : Option Nat
  source : Json
  destination : String
  protocol : String
  type : Json
  info : String
deriving Repr, DecidableEq

/-- Whitespace for `str.strip()` (the ASCII whitespace characters Python
strips; the logs contain no exotic Unicode whitespace). -/
def pySpace (c : Char) : Bool :=
  c = ' ' ∨ c = '\t' ∨ c = '\n' ∨ c = '\r' ∨ c = Char.ofNat 11 ∨ c = Char.ofNat 12

/-- Python `log.strip()`. -/
def stripChars (cs : List Char) : List Char :=
  ((cs.dropWhile pySpace).reverse.dropWhile pySpace).reverse

/-- Drop the literal `lit` from the front of `cs`; `some rest` on success. -/
def dropLit : List Char → List Char → Option (List Char)
  | [], cs => some cs
  | _ :: _, [] => none
  | p :: ps, c :: cs => if c = p then dropLit ps cs else none

/-- JSON whitespace (`json.decoder.WHITESPACE`). -/
def jsonWs (c : Char) : Bool :=
  c = ' ' ∨ c = '\t' ∨ c = '\n' ∨ c = '\r'

def skipWs (cs : List Char) : List Char := cs.dropWhile jsonWs

def hexVal (c : Char) : Option Nat :=
  if '0' ≤ c ∧ c ≤ '9' then some (c.toNat - 48)
  else if 'a' ≤ c ∧ c ≤ 'f' then some (c.toNat - 87)
  else if 'A' ≤ c ∧ c ≤ 'F' then some (c.toNat - 55)
  else none

def hex4 (a b c d : Char) : Option Nat := do
  let x ← hexVal a
  let y ← hexVal b
  let z ← hexVal c
  let w ← hexVal d
  pure (((x * 16 + y) * 16 + z) * 16 + w)

/-- The body of a JSON string after the opening quote: the decoded characters
and the rest of the input after the closing quote.  Strict mode: raw control
characters are rejected; `\uXXXX` surrogate pairs are combined.  (CPython
additionally tolerates lone surrogates, which Lean `Char` cannot represent;
no log line contains them.) -/
def jStringBody : List Char → Option (List Char × List Char)
  | [] => none
  | '\\' :: 'u' :: h1 :: h2 :: h3 :: h4 :: cs =>
    match hex4 h1 h2 h3 h4 with
    | none => none
    | some n =>
      if 0xD800 ≤ n ∧ n ≤ 0xDBFF then
        match cs with
        | '\\' :: 'u' :: g1 :: g2 :: g3 :: g4 :: cs2 =>
          match hex4 g1 g2 g3 g4 with
          | none => none
          | some m =>
            if 0xDC00 ≤ m ∧ m ≤ 0xDFFF then
              match jStringBody cs2 with
              | none => none
              | some (s, r) =>
                some (Char.ofNat (0x10000 + (n - 0xD800) * 0x400 + (m - 0xDC00)) :: s, r)
            else none
        | _ => none
      else if 0xDC00 ≤ n ∧ n ≤ 0xDFFF then none
      else
        match jStringBody cs with
        | none => none
        | some (s, r) => some (Char.ofNat n :: s, r)
  | '\\' :: e :: cs =>
    match
      (if e = '"' then some '"'
       else if e = '\\' then some '\\'
       else if e = '/' then some '/'
       else if e = 'b' then some (Char.ofNat 8)
       else if e = 'f' then some (Char.ofNat 12)
       else if e = 'n' then some '\n'
       else if e = 'r' then some '\r'
       else if e = 't' then some '\t'
       else none) with
    | none => none
    | some c =>
      match jStringBody cs with
      | none => none
      | some (s, r) => some (c :: s, r)
  | c :: cs =>
    if c = '"' then some ([], cs)
    else if c.toNat < 0x20 then none
    else
      match jStringBody cs with
      | none => none
      | some (s, r) => some (c :: s, r)

def digitsToNat (ds : List Char) : Nat :=
  ds.foldl (fun a c => a * 10 + (c.toNat - 48)) 0

/-- The integer-part digits of a JSON number at the head of `cs`
(`0|[1-9]\d*`), or `none`. -/
def jIntDigits (cs : List Char) : Option (List Char × List Char) :=
  match cs with
  | '0' :: r => some (['0'], r)
  | c :: _ =>
    if c.isDigit then
      some (cs.takeWhile Char.isDigit, cs.dropWhile Char.isDigit)
    else none
  | [] => none

/-- A JSON number literal (CPython `NUMBER_RE`): integer literals become
`intNum`, anything with a fraction or exponent becomes `floatNum` carrying
its source token. -/
def jNumber (cs : List Char) : Option (Json × List Char) :=
  let (neg, r0) := match cs with
    | '-' :: r => (true, r)
    | _ => (false, cs)
  match jIntDigits r0 with
  | none => none
  | some (ids, r1) =>
    let (fds, r2) := match r1 with
      | '.' :: rf =>
        let ds := rf.takeWhile Char.isDigit
        if ds.isEmpty then ([], r1) else ('.' :: ds, rf.dropWhile Char.isDigit)
      | _ => ([], r1)
    let (eds, r3) := match r2 with
      | e :: rf =>
        if e = 'e' ∨ e = 'E' then
          let (sg, rg) := match rf with
            | s :: rr => if s = '+' ∨ s = '-' then ([s], rr) else ([], rf)
            | [] => ([], rf)
          let ds := rg.takeWhile Char.isDigit
          if ds.isEmpty then ([], r2) else (e :: (sg ++ ds), rg.dropWhile Char.isDigit)
        else ([], r2)
      | [] => ([], r2)
    if fds.isEmpty ∧ eds.isEmpty then
      let v : Int := Int.ofNat (digitsToNat ids)
      some (Json.intNum (if neg then -v else v), r3)
    else
      some (Json.floatNum (String.mk ((if neg then ['-'] else []) ++ ids ++ fds ++ eds)), r3)

mutual

/-- A JSON value at the head of `cs` (no leading-whitespace skip; callers
skip).  `fuel` only bounds recursion depth; `jsonParse` supplies enough. -/
def jVal : Nat → List Char → Option (Json × List Char)
  | 0, _ => none
  | f + 1, cs =>
    match dropLit ['t', 'r', 'u', 'e'] cs with
    | some r => some (Json.bool true, r)
    | none =>
    match dropLit ['f', 'a', 'l', 's', 'e'] cs with
    | some r => some (Json.bool false, r)
    | none =>
    match dropLit ['n', 'u', 'l', 'l'] cs with
    | some r => some (Json.null, r)
    | none =>
    match dropLit ['N', 'a', 'N'] cs with
    | some r => some (Json.floatNum "nan", r)
    | none =>
    match dropLit ['I', 'n', 'f', 'i', 'n', 'i', 't', 'y'] cs with
    | some r => some (Json.floatNum "inf", r)
    | none =>
    match dropLit ['-', 'I', 'n', 'f', 'i', 'n', 'i', 't', 'y'] cs with
    | some r => some (Json.floatNum "-inf", r)
    | none =>
    match cs with
    | '"' :: r =>
      match jStringBody r with
      | none => none
      | some (s, rest) => some (Json.str (String.mk s), rest)
    | '{' :: r =>
      match skipWs r with
      | '}' :: r2 => some (Json.objL [], r2)
      | cs2 => jMembers f cs2 []
    | '[' :: r =>
      match skipWs r with
      | ']' :: r2 => some (Json.arrL [], r2)
      | cs2 => jItems f cs2 []
    | _ => jNumber cs

/-- The members of a JSON object, positioned at a (hoped-for) `"key"`. -/
def jMembers : Nat → List Char → List (String × Json) → Option (Json × List Char)
  | 0, _, _ => none
  | f + 1, cs, acc =>
    match cs with
    | '"' :: r =>
      match jStringBody r with
      | none => none
      | some (k, r1) =>
        match skipWs r1 with
        | ':' :: r2 =>
          match jVal f (skipWs r2) with
          | none => none
          | some (v, r3) =>
            match skipWs r3 with
            | '}' :: r4 => some (Json.objL (acc ++ [(String.mk k, v)]), r4)
            | ',' :: r4 => jMembers f (skipWs r4) (acc ++ [(String.mk k, v)])
            | _ => none
        | _ => none
    | _ => none

/-- The items of a JSON array, positioned at a (hoped-for) value. -/
def jItems : Nat → List Char → List Json → Option (Json × List Char)
  | 0, _, _ => none
  | f + 1, cs, acc =>
    match jVal f cs with
    | none => none
    | some (v, r) =>
      match skipWs r with
      | ']' :: r2 => some (Json.arrL (acc ++ [v]), r2)
      | ',' :: r2 => jItems f (skipWs r2) (acc ++ [v])
      | _ => none

end

/-- Model of `json.loads` on the character list: one value, with surrounding
whitespace allowed and trailing garbage rejected. -/
def jsonParse (cs : List Char) : Option Json :=
  match jVal (cs.length + 4) (skipWs cs) with
  | some (j, rest) => if (skipWs rest).isEmpty then some j else none
  | none => none

/-- Lookup in a decoded object.  The parser keeps duplicate keys in source
order; a Python `dict` keeps the last binding, hence the last match. -/
def jsonGetLast (kvs : JMembers) (k : String) : Option Json :=
  ((kvs.toList.filter (fun kv => decide (kv.1 = k))).getLast?).map (·.2)

/-- Python `d.get(k, default)` on a decoded object's members. -/
def jsonGetLastD (kvs : JMembers) (k : String) (d : Json) : Json :=
  (jsonGetLast kvs k).getD d

/-! ## The four line recognizers

`parse_log_file` tries, in order:

1. `^(node\d+): Sending message to (node\d+): (.*)$`
2. `^(node\d+): Received message from ([\d\.]+):\d+: (.*)$`
3. `^UDPTransport: Sending message to ([\d\.]+):(\d+): (.*)$`
4. `^\[UDP_LOG\] \[(IN|OUT)\] \[([\d\.:]+)\] \[([\d]+)\] \[([\d\.]+):([\d]+)\] \[(.*)\]$`

Every `\d+` / `[\d\.]+` / `[\d\.:]+` run is followed by a literal character
outside its class, so greedy scanning without backtracking is exactly the
regex semantics.  `.` does not match a newline, so a `(.*)` capture may not
contain one (the matched lines are stripped, so `$` is plain end-of-input).
-/

/-- The char class `[\d\.]` (IP addresses). -/
def ipChar (c : Char) : Bool := c.isDigit ∨ c = '.'

/-- The char class `[\d\.:]` (times of day). -/
def tsChar (c : Char) : Bool := c.isDigit ∨ c = '.' ∨ c = ':'

/-- The capture `(node\d+)` at the head of `cs`: the captured name and the rest. -/
def matchNodeName (cs : List Char) : Option (List Char × List Char) :=
  match dropLit ['n', 'o', 'd', 'e'] cs with
  | none => none
  | some rest =>
    let ds := rest.takeWhile Char.isDigit
    if ds.isEmpty then none
    else some ('n' :: 'o' :: 'd' :: 'e' :: ds, rest.dropWhile Char.isDigit)

def sendLit : List Char := (": Sending message to ").toList
def recvLit : List Char := (": Received message from ").toList
def transLit : List Char := ("UDPTransport: Sending message to ").toList
def udpLogLit : List Char := ("[UDP_LOG] [").toList

/-- Recognizer 1.  Captures `(source name, destination name, payload)`. -/
def matchSending (cs : List Char) : Option (List Char × List Char × List Char) :=
  match matchNodeName cs with
  | none => none
  | some (src, r1) =>
    match dropLit sendLit r1 with
    | none => none
    | some r2 =>
      match matchNodeName r2 with
      | none => none
      | some (dst, r3) =>
        match dropLit [':', ' '] r3 with
        | none => none
        | some payload =>
          if payload.contains '\n' then none else some (src, dst, payload)

/-- Recognizer 2.  Captures `(destination name, source ip, payload)`; the
port after the ip is matched but (as in the regex) not captured. -/
def matchReceived (cs : List Char) : Option (List Char × List Char × List Char) :=
  match matchNodeName cs with
  | none => none
  | some (dst, r1) =>
    match dropLit recvLit r1 with
    | none => none
    | some r2 =>
      let ip := r2.takeWhile ipChar
      if ip.isEmpty then none
      else
        match r2.dropWhile ipChar with
        | ':' :: r3 =>
          let port := r3.takeWhile Char.isDigit
          if port.isEmpty then none
          else
            match r3.dropWhile Char.isDigit with
            | ':' :: ' ' :: payload =>
              if payload.contains '\n' then none else some (dst, ip, payload)
            | _ => none
        | _ => none

/-- Recognizer 3.  Captures `(ip, port, payload)`. -/
def matchTransport (cs : List Char) : Option (List Char × List Char × List Char) :=
  match dropLit transLit cs with
  | none => none
  | some r1 =>
    let ip := r1.takeWhile ipChar
    if ip.isEmpty then none
    else
      match r1.dropWhile ipChar with
      | ':' :: r2 =>
        let port := r2.takeWhile Char.isDigit
        if port.isEmpty then none
        else
          match r2.dropWhile Char.isDigit with
          | ':' :: ' ' :: payload =>
            if payload.contains '\n' then none else some (ip, port, payload)
          | _ => none
      | _ => none

/-- The captures of recognizer 4. -/
structure UdpCaps where
  dirIn : Bool
  ts : List Char
  localPort : List Char
  remoteAddr : List Char
  remotePort : List Char
  preview : List Char
deriving Repr, DecidableEq

/-- Recognizer 4 after the direction field: `\[([\d\.:]+)\] \[([\d]+)\]
\[([\d\.]+):([\d]+)\] \[(.*)\]$`. -/
def matchUdpLogRest (dirIn : Bool) (r1 : List Char) : Option UdpCaps :=
  let ts := r1.takeWhile tsChar
  if ts.isEmpty then none
  else
    match dropLit [']', ' ', '['] (r1.dropWhile tsChar) with
    | none => none
    | some r2 =>
      let lp := r2.takeWhile Char.isDigit
      if lp.isEmpty then none
      else
        match dropLit [']', ' ', '['] (r2.dropWhile Char.isDigit) with
        | none => none
        | some r3 =>
          let ra := r3.takeWhile ipChar
          if ra.isEmpty then none
          else
            match r3.dropWhile ipChar with
            | ':' :: r4 =>
              let rp := r4.takeWhile Char.isDigit
              if rp.isEmpty then none
              else
                match dropLit [']', ' ', '['] (r4.dropWhile Char.isDigit) with
                | none => none
                | some r5 =>
                  -- `(.*)\]$`: everything up to a final `]`, newline-free.
                  match r5.reverse with
                  | ']' :: revPreview =>
                    let preview := revPreview.reverse
                    if preview.contains '\n' then none
                    else some ⟨dirIn, ts, lp, ra, rp, preview⟩
                  | _ => none
            | _ => none

/-- Recognizer 4.  `(IN|OUT)` is an alternation of two literals. -/
def matchUdpLog (cs : List Char) : Option UdpCaps :=
  match dropLit udpLogLit cs with
  | none => none
  | some r0 =>
    match dropLit ['I', 'N', ']', ' ', '['] r0 with
    | some r1 => matchUdpLogRest true r1
    | none =>
      match dropLit ['O', 'U', 'T', ']', ' ', '['] r0 with
      | some r1 => matchUdpLogRest false r1
      | none => none

/-! ## The per-line record builders -/

/-- Whether `needle` occurs as a contiguous sublist of `hay`. -/
def listContains (needle : List Char) : List Char → Bool
  | [] => (dropLit needle []).isSome
  | c :: cs => (dropLit needle (c :: cs)).isSome || listContains needle cs

/-- Python's `needle in hay` on strings (substring containment). -/
def pyInSub (needle hay : String) : Bool :=
  listContains needle.toList hay.toList

/-- Model of `datetime.strptime(f"{today} {s}", "%Y-%m-%d %H:%M:%S.%f")`, reduced to
the time-of-day part (the leading date text is today's date and always parses).
Result: microseconds after midnight, or `none` for the `ValueError` cases:
each of `%H`/`%M`/`%S` takes at most two digits and must be in range
(CPython's `%S` admits 60/61 but the `datetime` constructor then rejects
them), `%f` takes one to six digits, right-padded to microseconds, and the
whole string must be consumed. -/
def parseTimeOfDay (cs : List Char) : Option Nat :=
  let hs := cs.takeWhile Char.isDigit
  match hs, cs.dropWhile Char.isDigit with
  | [], _ => none
  | _ :: _, ':' :: r2 =>
    if hs.length > 2 then none
    else
      let ms := r2.takeWhile Char.isDigit
      match ms, r2.dropWhile Char.isDigit with
      | [], _ => none
      | _ :: _, ':' :: r4 =>
        if ms.length > 2 then none
        else
          let ss := r4.takeWhile Char.isDigit
          match ss, r4.dropWhile Char.isDigit with
          | [], _ => none
          | _ :: _, '.' :: r6 =>
            if ss.length > 2 then none
            else
              let fs := r6.takeWhile Char.isDigit
              if fs.isEmpty ∨ fs.length > 6 ∨ ¬(r6.dropWhile Char.isDigit).isEmpty then none
              else
                let h := digitsToNat hs
                let m := digitsToNat ms
                let s := digitsToNat ss
                if h ≤ 23 ∧ m ≤ 59 ∧ s ≤ 59 then
                  some (((h * 60 + m) * 60 + s) * 1000000 + digitsToNat fs * 10 ^ (6 - fs.length))
                else none
          | _, _ => none
      | _, _ => none
  | _, _ => none

/-- Branch 1 (outbound peer message).  `message_json.get` raises
`AttributeError` when the decoded payload is not an object; only
`json.JSONDecodeError` is caught. -/
def sendBranch (src dst payload : List Char) : Except PyErr (Option Record) :=
  match jsonParse payload with
  | some (Json.obj kvs) =>
    .ok (some ⟨none, Json.str (String.mk src), String.mk dst, "P2P",
               jsonGetLastD kvs "type" (Json.str "json"), String.mk payload⟩)
  | some _ => .error PyErr.attributeError
  | none =>
    .ok (some ⟨none, Json.str (String.mk src), String.mk dst, "P2P",
               Json.str "text", String.mk payload⟩)

/-- Branch 2 (inbound peer message).  The `try` block decodes the outer
payload, reads `sender`/`message`, decodes the inner message and reads its
`type`; `json.JSONDecodeError` and `TypeError` (a non-string `message` fed
to `json.loads`) fall back to the transport ip and the `text` sentinel,
while `message_json.get` / `message_content.get` on a non-object raise an
uncaught `AttributeError`. -/
def recvBranch (dst ip payload : List Char) : Except PyErr (Option Record) :=
  match jsonParse payload with
  | none =>
    .ok (some ⟨none, Json.str (String.mk ip), String.mk dst, "P2P",
               Json.str "text", String.mk payload⟩)
  | some (Json.obj kvs) =>
    let sender := jsonGetLastD kvs "sender" (Json.str "unknown")
    match jsonGetLastD kvs "message" (Json.str "\x7b\x7d") with
    | Json.str s =>
      match jsonParse s.toList with
      | some (Json.obj ikvs) =>
        .ok (some ⟨none, sender, String.mk dst, "P2P",
                   jsonGetLastD ikvs "type" (Json.str "json"), String.mk payload⟩)
      | some _ => .error PyErr.attributeError
      | none =>
        .ok (some ⟨none, Json.str (String.mk ip), String.mk dst, "P2P",
                   Json.str "text", String.mk payload⟩)
    | _ =>
      .ok (some ⟨none, Json.str (String.mk ip), String.mk dst, "P2P",
                 Json.str "text", String.mk payload⟩)
  | some _ => .error PyErr.attributeError

/-- Branch 3 (outbound transport message): like branch 2, but the
destination is `ip:port` from the line and the decode-failure fallback
source is `"unknown"`. -/
def transBranch (ip port payload : List Char) : Except PyErr (Option Record) :=
  let dest := String.mk (ip ++ ':' :: port)
  match jsonParse payload with
  | none =>
    .ok (some ⟨none, Json.str "unknown", dest, "UDP", Json.str "text", String.mk payload⟩)
  | some (Json.obj kvs) =>
    let sender := jsonGetLastD kvs "sender" (Json.str "unknown")
    match jsonGetLastD kvs "message" (Json.str "\x7b\x7d") with
    | Json.str s =>
      match jsonParse s.toList with
      | some (Json.obj ikvs) =>
        .ok (some ⟨none, sender, dest, "UDP",
                   jsonGetLastD ikvs "type" (Json.str "json"), String.mk payload⟩)
      | some _ => .error PyErr.attributeError
      | none =>
        .ok (some ⟨none, Json.str "unknown", dest, "UDP", Json.str "text", String.mk payload⟩)
    | _ =>
      .ok (some ⟨none, Json.str "unknown", dest, "UDP", Json.str "text", String.mk payload⟩)
  | some _ => .error PyErr.attributeError

/-- Branch 4 (instrumented datagram event).  `strptime` may raise an
uncaught `ValueError`; the `if 'type' in message_json` test raises an
uncaught `TypeError` when the decoded preview is not a container, and
`message_json['type']` raises one when it is a `str` or `list` containing
`'type'`. -/
def udpBranch (c : UdpCaps) : Except PyErr (Option Record) :=
  match parseTimeOfDay c.ts with
  | none => .error PyErr.valueError
  | some micros =>
    let remote := String.mk (c.remoteAddr ++ ':' :: c.remotePort)
    let localE := "localhost:" ++ String.mk c.localPort
    let source := if c.dirIn then remote else localE
    let destination := if c.dirIn then localE else remote
    let mkRec (t : Json) : Record :=
      ⟨some micros, Json.str source, destination, "UDP", t, String.mk c.preview⟩
    match jsonParse c.preview with
    | none => .ok (some (mkRec (Json.str "UDP_DATA")))
    | some (Json.obj kvs) =>
      match jsonGetLast kvs "type" with
      | some v => .ok (some (mkRec v))
      | none => .ok (some (mkRec (Json.str "UDP_DATA")))
    | some (Json.str s) =>
      -- `'type' in s` is a substring test; indexing a str with `'type'`
      -- then raises `TypeError`.
      if pyInSub "type" s then .error PyErr.typeError
      else .ok (some (mkRec (Json.str "UDP_DATA")))
    | some (Json.arr l) =>
      -- membership is elementwise equality; list['type'] then raises.
      if (l.toList.any (fun e => decide (e = Json.str "type"))) then .error PyErr.typeError
      else .ok (some (mkRec (Json.str "UDP_DATA")))
    | some _ => .error PyErr.typeError

/-- The body of the `for log in logs` loop for one (already stripped) line:
`.ok none` when no recognizer matches, `.ok (some r)` when a record is
appended, `.error e` when the iteration raises. -/
def processLine (cs : List Char) : Except PyErr (Option Record) :=
  match matchSending cs with
  | some (src, dst, payload) => sendBranch src dst payload
  | none =>
    match matchReceived cs with
    | some (dst, ip, payload) => recvBranch dst ip payload
    | none =>
      match matchTransport cs with
      | some (ip, port, payload) => transBranch ip port payload
      | none =>
        match matchUdpLog cs with
        | some c => udpBranch c
        | none => .ok none

/-- The loop of `parse_log_file`, accumulating `parsed_logs`. -/
def parseGo : List String → List Record → Except PyErr (List Record)
  | [], acc => .ok acc
  | l :: ls, acc =>
    match processLine (stripChars l.toList) with
    | .error e => .error e
    | .ok none => parseGo ls acc
    | .ok (some r) => parseGo ls (acc ++ [r])

/-- The function `parse_log_file`, applied to the file's lines (`f.read().splitlines()`
is modelled as the given list of lines). -/
def parse_log_file (logs : List String) : Except PyErr (List Record) :=
  parseGo logs []

/-- The record contributed by one raw line, if any. -/
def lineRecord (l : String) : Option Record :=
  match processLine (stripChars l.toList) with
  | .ok (some r) => some r
  | _ => none

instance {ε α : Type} [DecidableEq ε] [DecidableEq α] : DecidableEq (Except ε α) := fun x y =>
  match x, y with
  | .ok a, .ok b =>
    if h : a = b then isTrue (h ▸ rfl) else isFalse (fun hh => h (Except.ok.inj hh))
  | .error a, .error b =>
    if h : a = b then isTrue (h ▸ rfl) else isFalse (fun hh => h (Except.error.inj hh))
  | .ok _, .error _ => isFalse (fun hh => Except.noConfusion hh)
  | .error _, .ok _ => isFalse (fun hh => Except.noConfusion hh)

/-! ## The view renderers -/

def spacesStr (n : Nat) : String := String.mk (List.replicate n ' ')

/-- Python `f"{s:<w}"` for a string: left-justify, no truncation. -/
def padL (s : String) (w : Nat) : String := s ++ spacesStr (w - s.length)

def repChar (c : Char) (n : Nat) : String := String.mk (List.replicate n c)

def dash140 : String := repChar '-' 140
def eq140 : String := repChar '=' 140

/-- Left-pad with zeros to width `w` (`f"{n:0wd}"`). -/
def zpad (n w : Nat) : String :=
  let s := toString n
  String.mk (List.replicate (w - s.length) '0') ++ s

mutual

/-- Python `str()` of a decoded value, as used in f-strings without a format
spec.  (`str` of a float is approximated by the literal's source token,
which agrees for the plain decimal literals that occur in logs.) -/
def pyStr : Json → String
  | .null => "None"
  | .bool true => "True"
  | .bool false => "False"
  | .intNum n => toString n
  | .floatNum raw => raw
  | .str s => s
  | .arr l => "[" ++ pyReprL l ++ "]"
  | .obj kvs => "\x7b" ++ pyReprM kvs ++ "\x7d"

/-- Python `repr()` of a decoded value (strings get quoted; the escaping of
special characters inside them is not modelled — none occur in logs). -/
def pyReprJ : Json → String
  | .str s => "\x27" ++ s ++ "\x27"
  | .null => "None"
  | .bool true => "True"
  | .bool false => "False"
  | .intNum n => toString n
  | .floatNum raw => raw
  | .arr l => "[" ++ pyReprL l ++ "]"
  | .obj kvs => "\x7b" ++ pyReprM kvs ++ "\x7d"

def pyReprL : JList → String
  | .nil => ""
  | .cons j .nil => pyReprJ j
  | .cons j tl => pyReprJ j ++ ", " ++ pyReprL tl

def pyReprM : JMembers → String
  | .nil => ""
  | .cons k v .nil => "\x27" ++ k ++ "\x27: " ++ pyReprJ v
  | .cons k v tl => "\x27" ++ k ++ "\x27: " ++ pyReprJ v ++ ", " ++ pyReprM tl

end

/-- Python `format(x, '<w')`: strings and ints work (a bool formats as its int
value), floats work (token approximation), `None`/`dict`/`list` raise
`TypeError`. -/
def fmtPad (j : Json) (w : Nat) : Option String :=
  match j with
  | .str s => some (padL s w)
  | .intNum n => some (padL (toString n) w)
  | .bool b => some (padL (if b then "1" else "0") w)
  | .floatNum raw => some (padL raw w)
  | _ => none

/-- Python `f"{x:<15.6f}"` of `timedelta.total_seconds()`, for an exact difference
of `n` microseconds: microsecond-precision values within a day round-trip
exactly through the double and the 6-fraction-digit rendering. -/
def fmtRelNat (n : Nat) : String :=
  toString (n / 1000000) ++ "." ++ zpad (n % 1000000) 6

def fmtRel (d : Int) : String :=
  if d < 0 then "-" ++ fmtRelNat (-d).toNat else fmtRelNat d.toNat

/-- The ANSI color chosen for a row. -/
def wsColor (r : Record) : String :=
  if r.type = Json.str "ack" then "\x1b[92m"
  else if r.type = Json.str "gossip" then "\x1b[94m"
  else if r.type = Json.str "auth" then "\x1b[93m"
  else if r.protocol = "UDP" then "\x1b[90m"
  else "\x1b[0m"

/-- One printed row of the tabular trace (`start`, `t` in microseconds). -/
def wsRowStr (start t : Nat) (r : Record) (srcS tyS : String) : String :=
  wsColor r ++ padL (fmtRel ((t : Int) - (start : Int))) 15 ++ " " ++ srcS ++ " " ++
    padL r.destination 25 ++ " " ++ padL r.protocol 10 ++ " " ++ tyS ++ " " ++
    r.info.take 50 ++ "..." ++ "\x1b[0m"

/-- The row the loop would print for `r`, when nothing raises. -/
def wsRowOf (start : Nat) (r : Record) : Option String :=
  match r.timestamp, fmtPad r.source 25, fmtPad r.type 15 with
  | some t, some srcS, some tyS => some (wsRowStr start t r srcS tyS)
  | _, _, _ => none

/-- The row-printing loop: the rows printed, the in/out counts, and the
exception cutting the loop short if any (`KeyError` for a missing
timestamp — raised before the counts are bumped — or `TypeError` from
formatting a non-`str`/`int` source or type — raised after). -/
def wsRows (start : Nat) : List Record → List String × Nat × Nat × Option PyErr
  | [] => ([], 0, 0, none)
  | r :: rs =>
    match r.timestamp with
    | none => ([], 0, 0, some PyErr.keyError)
    | some t =>
      let inc : Nat := if pyInSub "localhost" r.destination then 1 else 0
      let outc : Nat := if pyInSub "localhost" r.destination then 0 else 1
      match fmtPad r.source 25, fmtPad r.type 15 with
      | some srcS, some tyS =>
        match wsRows start rs with
        | (rows, i, o, e) => (wsRowStr start t r srcS tyS :: rows, inc + i, outc + o, e)
      | _, _ => ([], inc, outc, some PyErr.typeError)

/-- Python `int(relative_time)` on the float of an exact microsecond difference:
truncation toward zero. -/
def truncSec (d : Int) : Int :=
  if 0 ≤ d then Int.ofNat (d.toNat / 1000000) else -Int.ofNat ((-d).toNat / 1000000)

def glyphOf (t : Json) : Char :=
  if t = Json.str "ack" then 'A'
  else if t = Json.str "gossip" then 'G'
  else if t = Json.str "auth" then 'H'
  else '.'

/-- The one-second-bucket timeline (only reached after the row loop
succeeded, so every record has a timestamp). -/
def timelineRows (start : Nat) (logs : List Record) : List String :=
  let pairs : List (Int × Json) :=
    logs.map (fun r => (truncSec (((r.timestamp.getD 0 : Nat) : Int) - (start : Int)), r.type))
  let maxI : Int := match pairs.map Prod.fst with
    | [] => 0
    | k :: ks => ks.foldl max k
  if (0 : Int) ≤ maxI then
    (List.range (maxI.toNat + 1)).map (fun i =>
      let events := pairs.filter (fun p => decide (p.1 = (i : Int)))
      padL (toString i) 5 ++ "s | " ++ String.mk (events.map (fun p => glyphOf p.2)))
  else []

def wsHeader : String :=
  padL "Time" 15 ++ " " ++ padL "Source" 25 ++ " " ++ padL "Destination" 25 ++ " " ++
    padL "Protocol" 10 ++ " " ++ padL "Type" 15 ++ " " ++ "Info"

/-- The renderer `print_wireshark_style`: the strings passed to `print`, in order, plus
the exception that interrupts it, if any.  (A `print` argument containing
an embedded newline, such as `"\n" + "="*140`, stays one element.) -/
def print_wireshark_style (logs : List Record) : List String × Option PyErr :=
  match logs with
  | [] => (["No logs to display."], none)
  | r0 :: _ =>
    match r0.timestamp with
    | none => ([wsHeader, dash140], some PyErr.keyError)
    | some start =>
      match wsRows start logs with
      | (rows, _, _, some e) => ([wsHeader, dash140] ++ rows, some e)
      | (rows, inC, outC, none) =>
        ([wsHeader, dash140] ++ rows ++
          ["\n" ++ eq140,
           "Total Packets: " ++ toString logs.length,
           "Incoming Packets: " ++ toString inC,
           "Outgoing Packets: " ++ toString outC,
           eq140,
           "\n" ++ "Time Plot (Relative Seconds):",
           dash140] ++ timelineRows start logs ++ [dash140], none)

/-- All sources as strings, or `none` if any is not a `str` (in which case
`sorted()` over the mixed participant set raises `TypeError`, since the
destinations are always strings). -/
def allStrs : List Json → Option (List String)
  | [] => some []
  | Json.str s :: rest => (allStrs rest).map (s :: ·)
  | _ :: _ => none

/-- Code-point lexicographic order (Python `<` on `str`). -/
def lexLe : List Char → List Char → Bool
  | [], _ => true
  | _ :: _, [] => false
  | x :: xs, y :: ys => if x = y then lexLe xs ys else decide (x < y)

def strLe (a b : String) : Bool := lexLe a.toList b.toList

def insertSorted (s : String) : List String → List String
  | [] => [s]
  | t :: ts => if strLe s t then s :: t :: ts else t :: insertSorted s ts

def sortStrs (l : List String) : List String := l.foldr insertSorted []

def dedupStrs (l : List String) : List String :=
  l.foldl (fun acc s => if s ∈ acc then acc else acc ++ [s]) []

/-- Python `sorted(list(set(...)))` over the participants. -/
def participantsOf (srcs dests : List String) : List String :=
  sortStrs (dedupStrs (srcs ++ dests))

/-- Python `p.replace(':', '_').replace('.', '_')`. -/
def sanitizePuml (s : String) : String :=
  s.map (fun c => if c = ':' ∨ c = '.' then '_' else c)

/-- Python `'localhost' in x` for a decoded value: substring test on `str`,
key test on `dict`, element test on `list`, `TypeError` otherwise. -/
def pyInLocalhost : Json → Except PyErr Bool
  | .str s => .ok (pyInSub "localhost" s)
  | .obj kvs => .ok (kvs.toList.any (fun kv => decide (kv.1 = "localhost")))
  | .arr l => .ok (l.toList.any (fun e => decide (e = Json.str "localhost")))
  | _ => .error PyErr.typeError

def generate_sequence_diagram_plantuml (logs : List Record) : Except PyErr String :=
  match allStrs (logs.map (·.source)) with
  | none => .error PyErr.typeError
  | some srcs =>
    let parts := participantsOf srcs (logs.map (·.destination))
    let headerL := ["@startuml", "skinparam monochrome true"] ++
      parts.map (fun p => "participant " ++ sanitizePuml p) ++ [""]
    let msgs := (srcs.zip logs).map (fun sr =>
      let arrow := if pyInSub "localhost" sr.1 then "->" else "<-"
      let info := if sr.2.info.length > 30 then sr.2.info.take 30 ++ "..." else sr.2.info
      sanitizePuml sr.1 ++ " " ++ arrow ++ " " ++ sanitizePuml sr.2.destination ++
        ": [" ++ pyStr sr.2.type ++ "] " ++ info)
    .ok (String.intercalate "\n" (headerL ++ msgs ++ ["@enduml"]))

def generate_activity_diagram_plantuml (logs : List Record) : Except PyErr String := do
  let body ← (logs.enum).mapM (fun ir => do
    let isLocal ← pyInLocalhost ir.2.source
    pure (if isLocal then "#green:Local Host sends " ++ pyStr ir.2.type ++ " (" ++ toString ir.1 ++ ");"
          else "#blue:Remote Host sends " ++ pyStr ir.2.type ++ " (" ++ toString ir.1 ++ ");"))
  pure (String.intercalate "\n"
    (["@startuml", "skinparam monochrome true", "start"] ++ body ++ ["stop", "@enduml"]))

/-- The enumerated records with their (all-string) sources. -/
def enumPairs (srcs : List String) (logs : List Record) : List (Nat × String × Record) :=
  ((srcs.zip logs).enum).map (fun p => (p.1, p.2.1, p.2.2))

/-- The state-transition lines for one participant (PlantUML flavor), and
the final state. -/
def stateStepsPuml (participant : String) : List (Nat × String × Record) → String → List String × String
  | [], cur => ([], cur)
  | (i, s, r) :: rest, cur =>
    if s = participant then
      let ns := "Sent_" ++ pyStr r.type ++ "_" ++ toString i
      let (ls, fin) := stateStepsPuml participant rest ns
      ((cur ++ " --> " ++ ns ++ " : Sends " ++ pyStr r.type) :: ls, fin)
    else if r.destination = participant then
      let ns := "Received_" ++ pyStr r.type ++ "_" ++ toString i
      let (ls, fin) := stateStepsPuml participant rest ns
      ((cur ++ " --> " ++ ns ++ " : Receives " ++ pyStr r.type) :: ls, fin)
    else stateStepsPuml participant rest cur

def generate_state_diagram_plantuml (logs : List Record) : Except PyErr String :=
  match allStrs (logs.map (·.source)) with
  | none => .error PyErr.typeError
  | some srcs =>
    let parts := participantsOf srcs (logs.map (·.destination))
    let blocks := parts.map (fun p =>
      let sf := stateStepsPuml p (enumPairs srcs logs) "Idle"
      ["@startuml State Diagram for " ++ sanitizePuml p, "skinparam monochrome true",
       "[*] --> Idle"] ++ sf.1 ++ [sf.2 ++ " --> [*]", "@enduml", "\n"])
    .ok (String.intercalate "\n" blocks.flatten)

/-- Python `p.split(':')[-1]`. -/
def lastComponent (p : String) : String := ((p.splitOn ":").getLast?).getD ""

/-- The dict `participant_cols`: column of each participant, 15 apart, in sorted
order. -/
def colsOf (parts : List String) : List (String × Nat) :=
  parts.enum.map (fun ip => (ip.2, ip.1 * 15))

def lookupCol (cols : List (String × Nat)) (p : String) : Nat :=
  ((cols.find? (fun c => decide (c.1 = p))).map (·.2)).getD 0

/-- One message line of the ASCII sequence diagram.  `List.set` out of
bounds is a no-op, which models the `if col < len(line)` guards. -/
def asciiSeqLine (cols : List (String × Nat)) (s : String) (r : Record) : String :=
  let sc := lookupCol cols s
  let rc := lookupCol cols r.destination
  let base := List.replicate (max sc rc + 15) ' '
  let withLife := cols.foldl (fun l c => l.set c.2 '|') base
  let afterArrow :=
    if sc < rc then
      (((List.range' (sc + 1) (rc - (sc + 1))).foldl (fun l i => l.set i '-') withLife).set rc '>').set sc '|'
    else
      (((List.range' (rc + 1) (sc - (rc + 1))).foldl (fun l i => l.set i '-') withLife).set rc '<').set sc '|'
  let mstart := if sc < rc then sc + 1 else rc + 1
  let mtext := "[" ++ pyStr r.type ++ "]"
  String.mk ((mtext.toList.enum).foldl
    (fun l ic => if mstart + ic.1 < l.length then l.set (mstart + ic.1) ic.2 else l) afterArrow)

def generate_ascii_sequence_diagram (logs : List Record) : Except PyErr String :=
  match allStrs (logs.map (·.source)) with
  | none => .error PyErr.typeError
  | some srcs =>
    let parts := participantsOf srcs (logs.map (·.destination))
    let cols := colsOf parts
    let headerLine := String.join (parts.map (fun p => padL (lastComponent p) 15))
    let rows := (srcs.zip logs).map (fun sr => asciiSeqLine cols sr.1 sr.2)
    .ok (String.intercalate "\n"
      (["ASCII Sequence Diagram:", "-----------------------", headerLine,
        repChar '-' headerLine.length] ++ rows ++ ["-----------------------"]))

def generate_ascii_activity_flow (logs : List Record) : Except PyErr String := do
  let rows ← (logs.enum).mapM (fun ir => do
    let isLocal ← pyInLocalhost ir.2.source
    pure (zpad ir.1 3 ++ ": " ++ (if isLocal then "OUT" else "IN") ++ " " ++ pyStr ir.2.type ++
          " (" ++ pyStr ir.2.source ++ " -> " ++ ir.2.destination ++ ")"))
  pure (String.intercalate "\n"
    (["ASCII Activity Flow:", "---------------------"] ++ rows ++ ["---------------------"]))

/-- The state-transition lines for one participant (ASCII flavor), and the
final state. -/
def stateStepsAscii (participant : String) : List (Nat × String × Record) → String → List String × String
  | [], cur => ([], cur)
  | (i, s, r) :: rest, cur =>
    if s = participant then
      let ns := "Sent_" ++ pyStr r.type ++ "_" ++ toString i
      let (ls, fin) := stateStepsAscii participant rest ns
      (("  " ++ cur ++ " --(Sends " ++ pyStr r.type ++ ")--> " ++ ns) :: ls, fin)
    else if r.destination = participant then
      let ns := "Received_" ++ pyStr r.type ++ "_" ++ toString i
      let (ls, fin) := stateStepsAscii participant rest ns
      (("  " ++ cur ++ " --(Receives " ++ pyStr r.type ++ ")--> " ++ ns) :: ls, fin)
    else stateStepsAscii participant rest cur

def generate_ascii_state_flow (logs : List Record) : Except PyErr String :=
  match allStrs (logs.map (·.source)) with
  | none => .error PyErr.typeError
  | some srcs =>
    let parts := participantsOf srcs (logs.map (·.destination))
    let blocks := parts.map (fun p =>
      let sf := stateStepsAscii p (enumPairs srcs logs) "Idle"
      ["\nParticipant: " ++ p, "  Initial State: Idle"] ++ sf.1 ++
        ["  " ++ sf.2 ++ " --(End)--> Final"])
    .ok (String.intercalate "\n"
      (["ASCII State Flow (per participant):", "-----------------------------------"] ++
        blocks.flatten ++ ["-----------------------------------"]))

/-! ## Specification mirrors and concrete instances used by the claims -/

/-- Whether a participant name has the shape `node\d+`. -/
def isNodeName (l : List Char) : Bool :=
  match l with
  | 'n' :: 'o' :: 'd' :: 'e' :: ds => !ds.isEmpty && ds.all Char.isDigit
  | _ => false

/-- The `sender` value the nested-envelope branches would read from the
line's outer payload, when the line is an inbound-peer or transport line
whose outer payload decodes to an object. -/
def outerSenderOfPayload (p : List Char) : Option Json :=
  match jsonParse p with
  | some (Json.obj kvs) => some (jsonGetLastD kvs "sender" (Json.str "unknown"))
  | _ => none

def outerSender (cs : List Char) : Option Json :=
  match matchReceived cs with
  | some (_, _, p) => outerSenderOfPayload p
  | none =>
    match matchTransport cs with
    | some (_, _, p) => outerSenderOfPayload p
    | none => none

/-- The payload-supplied `type` value the direct-type policy would adopt. -/
def directTypeOf (p : List Char) : Option Json :=
  match jsonParse p with
  | some (Json.obj kvs) => jsonGetLast kvs "type"
  | _ => none

/-- The payload-supplied `type` value the nested-envelope policy would
adopt (outer object, string `message` field, inner object). -/
def nestedTypeOf (p : List Char) : Option Json :=
  match jsonParse p with
  | some (Json.obj kvs) =>
    match jsonGetLastD kvs "message" (Json.str "\x7b\x7d") with
    | Json.str s =>
      match jsonParse s.toList with
      | some (Json.obj ikvs) => jsonGetLast ikvs "type"
      | _ => none
    | _ => none
  | _ => none

/-- The payload-supplied `type` value that `parse_log_file` would adopt for
this line, per the matching recognizer's policy. -/
def extractedType (cs : List Char) : Option Json :=
  match matchSending cs with
  | some (_, _, p) => directTypeOf p
  | none =>
    match matchReceived cs with
    | some (_, _, p) => nestedTypeOf p
    | none =>
      match matchTransport cs with
      | some (_, _, p) => nestedTypeOf p
      | none =>
        match matchUdpLog cs with
        | some c => directTypeOf c.preview
        | none => none

def c4wRec : Record := ⟨none, Json.str "node1", "node2", "P2P", Json.str "text", "hi"⟩

def c5wRec : Record := ⟨none, Json.str "node1", "node2", "P2P", Json.str "text", "hi"⟩


def c1Lines : List String :=
  ["node1: Sending message to node2: \x7b\"type\":\"gossip\",\"payload\":1\x7d",
   "node2: Received message from 10.0.0.5:4000: \x7b\"sender\":\"node1\",\"message\":\"\x7b\\\"type\\\":\\\"ack\\\"\x7d\"\x7d",
   "UDPTransport: Sending message to 10.0.0.9:5000: \x7b\"sender\":\"node3\",\"message\":\"\x7b\\\"type\\\":\\\"auth\\\"\x7d\"\x7d",
   "[UDP_LOG] [IN] [12:00:00.000] [4000] [10.0.0.5] [5000] [\x7b\"type\":\"ping\"\x7d]"]

def c1Records : List Record :=
  [⟨none, Json.str "node1", "node2", "P2P", Json.str "gossip",
    "\x7b\"type\":\"gossip\",\"payload\":1\x7d"⟩,
   ⟨none, Json.str "node1", "node2", "P2P", Json.str "ack",
    "\x7b\"sender\":\"node1\",\"message\":\"\x7b\\\"type\\\":\\\"ack\\\"\x7d\"\x7d"⟩,
   ⟨none, Json.str "node3", "10.0.0.9:5000", "UDP", Json.str "auth",
    "\x7b\"sender\":\"node3\",\"message\":\"\x7b\\\"type\\\":\\\"auth\\\"\x7d\"\x7d"⟩]

def c2NoTsRecord : Record := ⟨none, Json.str "node7", "node8", "P2P", Json.str "gossip", "x"⟩

def c2wRec1 : Record :=
  ⟨some 43200000000, Json.str "10.0.0.5:5000", "localhost:4000", "UDP", Json.str "ping", "p"⟩

def c2wRec2 : Record :=
  ⟨some 43201500000, Json.str "localhost:4000", "10.0.0.5:5000", "UDP", Json.str "ack", "q"⟩

/-! ## Lemmas and claim theorems -/

theorem dropLit_eq_append : ∀ (ps cs r : List Char), dropLit ps cs = some r → cs = ps ++ r
  | [], cs, r, h => by
    simp only [dropLit, Option.some.injEq] at h
    simpa using h
  | p :: ps, [], r, h => by simp [dropLit] at h
  | p :: ps, c :: cs, r, h => by
    simp only [dropLit] at h
    split at h
    · next heq => simpa [heq] using congrArg (c :: ·) (dropLit_eq_append ps cs r h)
    · exact absurd h (by simp)

theorem getElem?_append_left' {α : Type} (l₁ l₂ : List α) (n : Nat) (h : n < l₁.length) :
    (l₁ ++ l₂)[n]? = l₁[n]? := by
  simp [List.getElem?_append, h]

theorem mkStr_ne_empty {l : List Char} (h : l ≠ []) : String.mk l ≠ "" :=
  fun hh => h (congrArg String.data hh)

theorem data_append (a b : String) : (a ++ b).data = a.data ++ b.data := by
  cases a; cases b; rfl

theorem str_append_ne_empty_left {a : String} (b : String) (h : a.data ≠ []) : a ++ b ≠ "" := by
  intro hh
  apply h
  have hd := congrArg String.data hh
  rw [data_append] at hd
  exact List.append_eq_nil.mp hd |>.1

theorem matchNodeName_struct {cs nm rest : List Char}
    (h : matchNodeName cs = some (nm, rest)) :
    ∃ r, dropLit ['n', 'o', 'd', 'e'] cs = some r ∧
      (r.takeWhile Char.isDigit) ≠ [] ∧
      nm = 'n' :: 'o' :: 'd' :: 'e' :: r.takeWhile Char.isDigit ∧
      rest = r.dropWhile Char.isDigit := by
  unfold matchNodeName at h
  split at h
  · exact absurd h (by simp)
  · next r heq =>
    try simp only [] at h
    split at h
    · exact absurd h (by simp)
    · next hne =>
      simp only [Option.some.injEq, Prod.mk.injEq] at h
      exact ⟨r, heq, by simpa using hne, h.1.symm, h.2.symm⟩

theorem matchNodeName_head {cs : List Char} {x : List Char × List Char}
    (h : matchNodeName cs = some x) : cs[0]? = some 'n' := by
  obtain ⟨nm, rest⟩ := x
  obtain ⟨r, hd, _, _, _⟩ := matchNodeName_struct h
  rw [dropLit_eq_append _ _ _ hd]
  rfl

theorem matchNodeName_none_of_head {cs : List Char} (h : cs[0]? ≠ some 'n') :
    matchNodeName cs = none := by
  cases hm : matchNodeName cs with
  | none => rfl
  | some x => exact absurd (matchNodeName_head hm) h

theorem matchSending_struct {cs : List Char} {s d p : List Char}
    (h : matchSending cs = some (s, d, p)) :
    ∃ r1 r2 r3, matchNodeName cs = some (s, r1) ∧ dropLit sendLit r1 = some r2 ∧
      matchNodeName r2 = some (d, r3) ∧ dropLit [':', ' '] r3 = some p := by
  unfold matchSending at h
  split at h
  · exact absurd h (by simp)
  · next s' r1 heq1 =>
    split at h
    · exact absurd h (by simp)
    · next r2 heq2 =>
      split at h
      · exact absurd h (by simp)
      · next d' r3 heq3 =>
        split at h
        · exact absurd h (by simp)
        · next payload heq4 =>
          split at h
          · exact absurd h (by simp)
          · simp only [Option.some.injEq, Prod.mk.injEq] at h
            obtain ⟨h1, h2, h3⟩ := h
            subst h1; subst h2; subst h3
            exact ⟨r1, r2, r3, heq1, heq2, heq3, heq4⟩

theorem matchReceived_struct {cs : List Char} {d ip p : List Char}
    (h : matchReceived cs = some (d, ip, p)) :
    ∃ r1 r2, matchNodeName cs = some (d, r1) ∧ dropLit recvLit r1 = some r2 ∧
      ip = r2.takeWhile ipChar ∧ ip ≠ [] := by
  unfold matchReceived at h
  split at h
  · exact absurd h (by simp)
  · next d' r1 heq1 =>
    split at h
    · exact absurd h (by simp)
    · next r2 heq2 =>
      try simp only [] at h
      split at h
      · exact absurd h (by simp)
      · next hne =>
        split at h
        · next r3 heq3 =>
          try simp only [] at h
          split at h
          · exact absurd h (by simp)
          · next hne2 =>
            split at h
            · next payload heq4 =>
              split at h
              · exact absurd h (by simp)
              · simp only [Option.some.injEq, Prod.mk.injEq] at h
                obtain ⟨h1, h2, h3⟩ := h
                subst h1; subst h2; subst h3
                exact ⟨r1, r2, heq1, heq2, rfl, by simpa using hne⟩
            · exact absurd h (by simp)
        · exact absurd h (by simp)

theorem matchTransport_struct {cs : List Char} {ip port p : List Char}
    (h : matchTransport cs = some (ip, port, p)) :
    ∃ r1, dropLit transLit cs = some r1 ∧ ip ≠ [] ∧ port ≠ [] := by
  unfold matchTransport at h
  split at h
  · exact absurd h (by simp)
  · next r1 heq1 =>
    try simp only [] at h
    split at h
    · exact absurd h (by simp)
    · next hne =>
      split at h
      · next r2 heq2 =>
        try simp only [] at h
        split at h
        · exact absurd h (by simp)
        · next hne2 =>
          split at h
          · next payload heq3 =>
            split at h
            · exact absurd h (by simp)
            · simp only [Option.some.injEq, Prod.mk.injEq] at h
              obtain ⟨h1, h2, h3⟩ := h
              subst h1; subst h2; subst h3
              exact ⟨r1, heq1, by simpa using hne, by simpa using hne2⟩
          · exact absurd h (by simp)
      · exact absurd h (by simp)


theorem matchUdpLogRest_struct {dirIn : Bool} {r1 : List Char} {c : UdpCaps}
    (h : matchUdpLogRest dirIn r1 = some c) :
    c.dirIn = dirIn ∧ c.ts ≠ [] ∧ c.localPort ≠ [] ∧ c.remoteAddr ≠ [] ∧ c.remotePort ≠ [] := by
  unfold matchUdpLogRest at h
  try simp only [] at h
  split at h
  · exact absurd h (by simp)
  · next hts =>
    split at h
    · exact absurd h (by simp)
    · next r2 heq2 =>
      try simp only [] at h
      split at h
      · exact absurd h (by simp)
      · next hlp =>
        split at h
        · exact absurd h (by simp)
        · next r3 heq3 =>
          try simp only [] at h
          split at h
          · exact absurd h (by simp)
          · next hra =>
            split at h
            · next r4 heq4 =>
              try simp only [] at h
              split at h
              · exact absurd h (by simp)
              · next hrp =>
                split at h
                · exact absurd h (by simp)
                · next r5 heq5 =>
                  split at h
                  · next revp heq6 =>
                    split at h
                    · exact absurd h (by simp)
                    · simp only [Option.some.injEq] at h
                      subst h
                      exact ⟨rfl, by simpa using hts, by simpa using hlp,
                             by simpa using hra, by simpa using hrp⟩
                  · exact absurd h (by simp)
            · exact absurd h (by simp)

theorem matchUdpLog_struct {cs : List Char} {c : UdpCaps}
    (h : matchUdpLog cs = some c) :
    (∃ r0, dropLit udpLogLit cs = some r0) ∧
      c.ts ≠ [] ∧ c.localPort ≠ [] ∧ c.remoteAddr ≠ [] ∧ c.remotePort ≠ [] := by
  unfold matchUdpLog at h
  split at h
  · exact absurd h (by simp)
  · next r0 heq0 =>
    refine ⟨⟨r0, heq0⟩, ?_⟩
    split at h
    · next r1 heq1 => exact (matchUdpLogRest_struct h).2
    · split at h
      · next r1 heq1 => exact (matchUdpLogRest_struct h).2
      · exact absurd h (by simp)

theorem matchTransport_head {cs : List Char} {x : List Char × List Char × List Char}
    (h : matchTransport cs = some x) : cs[0]? = some 'U' := by
  obtain ⟨ip, port, p⟩ := x
  obtain ⟨r1, heq1, _, _⟩ := matchTransport_struct h
  rw [dropLit_eq_append _ _ _ heq1]
  rfl

theorem matchUdpLog_head {cs : List Char} {c : UdpCaps}
    (h : matchUdpLog cs = some c) : cs[0]? = some '[' := by
  obtain ⟨⟨r0, heq0⟩, _⟩ := matchUdpLog_struct h
  rw [dropLit_eq_append _ _ _ heq0]
  rfl

theorem matchSending_head {cs : List Char} {x : List Char × List Char × List Char}
    (h : matchSending cs = some x) : cs[0]? = some 'n' := by
  obtain ⟨s, d, p⟩ := x
  obtain ⟨r1, r2, r3, hn, _, _, _⟩ := matchSending_struct h
  exact matchNodeName_head hn

theorem matchReceived_head {cs : List Char} {x : List Char × List Char × List Char}
    (h : matchReceived cs = some x) : cs[0]? = some 'n' := by
  obtain ⟨d, ip, p⟩ := x
  obtain ⟨r1, r2, hn, _, _, _⟩ := matchReceived_struct h
  exact matchNodeName_head hn

theorem sendLit_recvLit_clash {r1 x y : List Char}
    (hx : dropLit sendLit r1 = some x) (hy : dropLit recvLit r1 = some y) : False := by
  have h1 := dropLit_eq_append _ _ _ hx
  have h2 := dropLit_eq_append _ _ _ hy
  rw [h1] at h2
  have h3 : (sendLit ++ x)[2]? = (recvLit ++ y)[2]? := by rw [h2]
  rw [getElem?_append_left' _ _ _ (by decide), getElem?_append_left' _ _ _ (by decide)] at h3
  exact absurd h3 (by decide)

theorem matchSending_none_of_received {cs : List Char} {x : List Char × List Char × List Char}
    (h : matchReceived cs = some x) : matchSending cs = none := by
  cases hm : matchSending cs with
  | none => rfl
  | some v =>
    obtain ⟨s, d, p⟩ := v
    obtain ⟨d', ip, p'⟩ := x
    obtain ⟨r1, r2, r3, hn1, hd1, _, _⟩ := matchSending_struct hm
    obtain ⟨r1', r2', hn2, hd2, _, _⟩ := matchReceived_struct h
    rw [hn1] at hn2
    have hr : r1 = r1' := by
      have := (Prod.mk.injEq _ _ _ _).mp (Option.some.inj hn2)
      exact this.2
    subst hr
    exact (sendLit_recvLit_clash hd1 hd2).elim

theorem matchReceived_none_of_sending {cs : List Char} {x : List Char × List Char × List Char}
    (h : matchSending cs = some x) : matchReceived cs = none := by
  cases hm : matchReceived cs with
  | none => rfl
  | some v =>
    exact absurd (matchSending_none_of_received hm) (by rw [h]; simp)

theorem matchTransport_none_of_head {cs : List Char} (h : cs[0]? = some 'n' ∨ cs[0]? = some '[') :
    matchTransport cs = none := by
  cases hm : matchTransport cs with
  | none => rfl
  | some v =>
    have := matchTransport_head hm
    rcases h with h | h <;> rw [h] at this <;> exact absurd (Option.some.inj this) (by decide)

theorem matchUdpLog_none_of_head {cs : List Char} (h : cs[0]? = some 'n' ∨ cs[0]? = some 'U') :
    matchUdpLog cs = none := by
  cases hm : matchUdpLog cs with
  | none => rfl
  | some v =>
    have := matchUdpLog_head hm
    rcases h with h | h <;> rw [h] at this <;> exact absurd (Option.some.inj this) (by decide)

theorem matchSending_none_of_head {cs : List Char} (h : cs[0]? = some 'U' ∨ cs[0]? = some '[') :
    matchSending cs = none := by
  cases hm : matchSending cs with
  | none => rfl
  | some v =>
    have := matchSending_head hm
    rcases h with h | h <;> rw [h] at this <;> exact absurd (Option.some.inj this) (by decide)

theorem matchReceived_none_of_head {cs : List Char} (h : cs[0]? = some 'U' ∨ cs[0]? = some '[') :
    matchReceived cs = none := by
  cases hm : matchReceived cs with
  | none => rfl
  | some v =>
    have := matchReceived_head hm
    rcases h with h | h <;> rw [h] at this <;> exact absurd (Option.some.inj this) (by decide)


theorem processLine_send {cs s d p : List Char} (h : matchSending cs = some (s, d, p)) :
    processLine cs = sendBranch s d p := by
  unfold processLine
  rw [h]

theorem processLine_recv {cs d ip p : List Char} (h : matchReceived cs = some (d, ip, p)) :
    processLine cs = recvBranch d ip p := by
  unfold processLine
  rw [matchSending_none_of_received h, h]

theorem processLine_trans {cs ip port p : List Char} (h : matchTransport cs = some (ip, port, p)) :
    processLine cs = transBranch ip port p := by
  have hU := matchTransport_head h
  unfold processLine
  rw [matchSending_none_of_head (Or.inl hU), matchReceived_none_of_head (Or.inl hU), h]

theorem processLine_udp {cs : List Char} {c : UdpCaps} (h : matchUdpLog cs = some c) :
    processLine cs = udpBranch c := by
  have hB := matchUdpLog_head h
  unfold processLine
  rw [matchSending_none_of_head (Or.inr hB), matchReceived_none_of_head (Or.inr hB),
      matchTransport_none_of_head (Or.inr hB), h]

theorem parseGo_ok : ∀ (ls : List String) (acc recs : List Record),
    parseGo ls acc = .ok recs → recs = acc ++ ls.filterMap lineRecord
  | [], acc, recs, h => by
    simp only [parseGo, Except.ok.injEq] at h
    simp [h.symm]
  | l :: ls, acc, recs, h => by
    simp only [parseGo] at h
    cases hp : processLine (stripChars l.toList) with
    | error e => rw [hp] at h; exact absurd h (by simp)
    | ok o =>
      cases o with
      | none =>
        rw [hp] at h
        have := parseGo_ok ls acc recs h
        simp only [String.toList] at hp
        simp [List.filterMap_cons, lineRecord, hp, this]
      | some r =>
        rw [hp] at h
        have := parseGo_ok ls (acc ++ [r]) recs h
        simp only [String.toList] at hp
        simp [List.filterMap_cons, lineRecord, hp, this]

theorem takeWhile_all {α : Type} (p : α → Bool) : ∀ l : List α, (l.takeWhile p).all p = true
  | [] => rfl
  | x :: xs => by
    by_cases h : p x
    · simp [List.takeWhile_cons, h, takeWhile_all p xs]
    · simp [List.takeWhile_cons, h]

theorem isNodeName_of_matchNodeName {cs nm rest : List Char}
    (h : matchNodeName cs = some (nm, rest)) : isNodeName nm = true := by
  obtain ⟨r, _, hne, hnm, _⟩ := matchNodeName_struct h
  subst hnm
  simp [isNodeName, hne, takeWhile_all]

theorem getLastD_eq_of_ne_default {kvs : JMembers} {k : String} {d v : Json}
    (h : jsonGetLastD kvs k d = v) (hne : v ≠ d) : jsonGetLast kvs k = some v := by
  unfold jsonGetLastD at h
  cases hg : jsonGetLast kvs k with
  | none => rw [hg] at h; exact absurd h.symm (by simpa using hne)
  | some w => rw [hg] at h; simp only [Option.getD_some] at h; exact congrArg some h


theorem sendBranch_shape {s d p : List Char} {r : Record}
    (h : sendBranch s d p = .ok (some r)) :
    r.destination = String.mk d ∧ r.source = Json.str (String.mk s) ∧
      (jsonParse p = none → r.type = Json.str "text") ∧
      (r.type = Json.str "" → directTypeOf p = some (Json.str "")) := by
  unfold sendBranch at h
  cases hj : jsonParse p with
  | none =>
    rw [hj] at h
    simp only [Except.ok.injEq, Option.some.injEq] at h
    subst h
    exact ⟨rfl, rfl, fun _ => rfl, fun hty => by simp at hty⟩
  | some j =>
    rw [hj] at h
    cases j
    case obj kvs =>
      try simp only [] at h
      simp only [Except.ok.injEq, Option.some.injEq] at h
      subst h
      refine ⟨rfl, rfl, fun hn => absurd hn (by simp), ?_⟩
      intro hty
      have hlast := getLastD_eq_of_ne_default hty (by decide)
      simp only [directTypeOf, hj]
      exact hlast
    all_goals exact absurd h (by simp)

theorem recvBranch_shape {d ip p : List Char} {r : Record}
    (h : recvBranch d ip p = .ok (some r)) :
    r.destination = String.mk d ∧
      (r.source = Json.str (String.mk ip) ∨
        ∃ kvs, jsonParse p = some (Json.obj kvs) ∧
          r.source = jsonGetLastD kvs "sender" (Json.str "unknown")) ∧
      (jsonParse p = none → r.type = Json.str "text" ∧ r.source = Json.str (String.mk ip)) ∧
      (r.type = Json.str "" → nestedTypeOf p = some (Json.str "")) := by
  unfold recvBranch at h
  cases hj : jsonParse p with
  | none =>
    rw [hj] at h
    simp only [Except.ok.injEq, Option.some.injEq] at h
    subst h
    exact ⟨rfl, Or.inl rfl, fun _ => ⟨rfl, rfl⟩, fun hty => by simp at hty⟩
  | some j =>
    rw [hj] at h
    cases j
    case obj kvs =>
      try simp only [] at h
      cases hmsg : jsonGetLastD kvs "message" (Json.str "\x7b\x7d")
      case str sIn =>
        rw [hmsg] at h
        try simp only [] at h
        cases hinner : jsonParse sIn.toList with
        | none =>
          rw [hinner] at h
          try simp only [] at h
          simp only [Except.ok.injEq, Option.some.injEq] at h
          subst h
          exact ⟨rfl, Or.inl rfl, fun hn => absurd hn (by simp), fun hty => by simp at hty⟩
        | some ji =>
          rw [hinner] at h
          try simp only [] at h
          cases ji
          case obj ikvs =>
            try simp only [] at h
            simp only [Except.ok.injEq, Option.some.injEq] at h
            subst h
            refine ⟨rfl, Or.inr ⟨kvs, rfl, rfl⟩, fun hn => absurd hn (by simp), ?_⟩
            intro hty
            have hlast := getLastD_eq_of_ne_default hty (by decide)
            simp only [nestedTypeOf, hj, hmsg, hinner]
            exact hlast
          all_goals exact absurd h (by simp)
      all_goals
        rw [hmsg] at h
        try simp only [] at h
        simp only [Except.ok.injEq, Option.some.injEq] at h
        subst h
        exact ⟨rfl, Or.inl rfl, fun hn => absurd hn (by simp), fun hty => by simp at hty⟩
    all_goals exact absurd h (by simp)

theorem transBranch_shape {ip port p : List Char} {r : Record}
    (h : transBranch ip port p = .ok (some r)) :
    r.destination = String.mk (ip ++ ':' :: port) ∧
      (r.source = Json.str "unknown" ∨
        ∃ kvs, jsonParse p = some (Json.obj kvs) ∧
          r.source = jsonGetLastD kvs "sender" (Json.str "unknown")) ∧
      (jsonParse p = none → r.type = Json.str "text" ∧ r.source = Json.str "unknown") ∧
      (r.type = Json.str "" → nestedTypeOf p = some (Json.str "")) := by
  unfold transBranch at h
  try simp only [] at h
  cases hj : jsonParse p with
  | none =>
    rw [hj] at h
    simp only [Except.ok.injEq, Option.some.injEq] at h
    subst h
    exact ⟨rfl, Or.inl rfl, fun _ => ⟨rfl, rfl⟩, fun hty => by simp at hty⟩
  | some j =>
    rw [hj] at h
    cases j
    case obj kvs =>
      try simp only [] at h
      cases hmsg : jsonGetLastD kvs "message" (Json.str "\x7b\x7d")
      case str sIn =>
        rw [hmsg] at h
        try simp only [] at h
        cases hinner : jsonParse sIn.toList with
        | none =>
          rw [hinner] at h
          try simp only [] at h
          simp only [Except.ok.injEq, Option.some.injEq] at h
          subst h
          exact ⟨rfl, Or.inl rfl, fun hn => absurd hn (by simp), fun hty => by simp at hty⟩
        | some ji =>
          rw [hinner] at h
          try simp only [] at h
          cases ji
          case obj ikvs =>
            try simp only [] at h
            simp only [Except.ok.injEq, Option.some.injEq] at h
            subst h
            refine ⟨rfl, Or.inr ⟨kvs, rfl, rfl⟩, fun hn => absurd hn (by simp), ?_⟩
            intro hty
            have hlast := getLastD_eq_of_ne_default hty (by decide)
            simp only [nestedTypeOf, hj, hmsg, hinner]
            exact hlast
          all_goals exact absurd h (by simp)
      all_goals
        rw [hmsg] at h
        try simp only [] at h
        simp only [Except.ok.injEq, Option.some.injEq] at h
        subst h
        exact ⟨rfl, Or.inl rfl, fun hn => absurd hn (by simp), fun hty => by simp at hty⟩
    all_goals exact absurd h (by simp)

theorem udpBranch_shape {c : UdpCaps} {r : Record}
    (h : udpBranch c = .ok (some r)) :
    r.destination = (if c.dirIn then "localhost:" ++ String.mk c.localPort
                     else String.mk (c.remoteAddr ++ ':' :: c.remotePort)) ∧
      r.source = Json.str (if c.dirIn then String.mk (c.remoteAddr ++ ':' :: c.remotePort)
                           else "localhost:" ++ String.mk c.localPort) ∧
      (jsonParse c.preview = none → r.type = Json.str "UDP_DATA") ∧
      (r.type = Json.str "" → directTypeOf c.preview = some (Json.str "")) := by
  unfold udpBranch at h
  cases ht : parseTimeOfDay c.ts with
  | none => rw [ht] at h; exact absurd h (by simp)
  | some micros =>
    rw [ht] at h
    try simp only [] at h
    cases hj : jsonParse c.preview with
    | none =>
      rw [hj] at h
      try simp only [] at h
      simp only [Except.ok.injEq, Option.some.injEq] at h
      subst h
      exact ⟨rfl, rfl, fun _ => rfl, fun hty => by simp at hty⟩
    | some j =>
      rw [hj] at h
      cases j
      case obj kvs =>
        try simp only [] at h
        cases hga : jsonGetLast kvs "type" with
        | some v =>
          rw [hga] at h
          try simp only [] at h
          simp only [Except.ok.injEq, Option.some.injEq] at h
          subst h
          refine ⟨rfl, rfl, fun hn => absurd hn (by simp), ?_⟩
          intro hty
          simp only [directTypeOf, hj]
          exact hga.trans (congrArg some hty)
        | none =>
          rw [hga] at h
          try simp only [] at h
          simp only [Except.ok.injEq, Option.some.injEq] at h
          subst h
          exact ⟨rfl, rfl, fun _ => rfl, fun hty => by simp at hty⟩
      case str sIn =>
        try simp only [] at h
        by_cases hin : pyInSub "type" sIn
        · rw [if_pos hin] at h
          exact absurd h (by simp)
        · rw [if_neg hin] at h
          simp only [Except.ok.injEq, Option.some.injEq] at h
          subst h
          exact ⟨rfl, rfl, fun _ => rfl, fun hty => by simp at hty⟩
      case arr l =>
        try simp only [] at h
        by_cases hin : (l.toList.any (fun e => decide (e = Json.str "type"))) = true
        · rw [if_pos hin] at h
          exact absurd h (by simp)
        · rw [if_neg hin] at h
          simp only [Except.ok.injEq, Option.some.injEq] at h
          subst h
          exact ⟨rfl, rfl, fun _ => rfl, fun hty => by simp at hty⟩
      all_goals exact absurd h (by simp)


theorem processLine_nomatch {cs : List Char}
    (h1 : matchSending cs = none) (h2 : matchReceived cs = none)
    (h3 : matchTransport cs = none) (h4 : matchUdpLog cs = none) :
    processLine cs = .ok none := by
  unfold processLine
  rw [h1, h2, h3, h4]

theorem lineRecord_some {l : String} {r : Record} (h : lineRecord l = some r) :
    processLine (stripChars l.toList) = .ok (some r) := by
  unfold lineRecord at h
  split at h
  · next r' heq =>
    rw [Option.some.inj h] at heq
    exact heq
  · exact absurd h (by simp)

theorem processLine_c4_core {cs : List Char} {r : Record}
    (h : processLine cs = .ok (some r)) :
    r.destination ≠ "" ∧ (r.source = Json.str "" → outerSender cs = some (Json.str "")) := by
  cases hm1 : matchSending cs with
  | some v =>
    obtain ⟨s, d, p⟩ := v
    rw [processLine_send hm1] at h
    obtain ⟨hdst, hsrc, _, _⟩ := sendBranch_shape h
    obtain ⟨r1, r2, r3, hn1, _, hn2, _⟩ := matchSending_struct hm1
    obtain ⟨rrd, _, _, hnmd, _⟩ := matchNodeName_struct hn2
    obtain ⟨rrs, _, _, hnms, _⟩ := matchNodeName_struct hn1
    refine ⟨?_, ?_⟩
    · rw [hdst, hnmd]
      exact mkStr_ne_empty (by simp)
    · intro hse
      rw [hsrc] at hse
      have hmk : String.mk s = "" := Json.str.inj hse
      rw [hnms] at hmk
      exact absurd hmk (mkStr_ne_empty (by simp))
  | none =>
    cases hm2 : matchReceived cs with
    | some v =>
      obtain ⟨d, ip, p⟩ := v
      rw [processLine_recv hm2] at h
      obtain ⟨hdst, hsrc, _, _⟩ := recvBranch_shape h
      obtain ⟨r1, r2, hn1, _, _, hipne⟩ := matchReceived_struct hm2
      obtain ⟨rrd, _, _, hnmd, _⟩ := matchNodeName_struct hn1
      refine ⟨?_, ?_⟩
      · rw [hdst, hnmd]
        exact mkStr_ne_empty (by simp)
      · intro hse
        rcases hsrc with hsrc | ⟨kvs, hjp, hsrc⟩
        · rw [hsrc] at hse
          exact absurd (Json.str.inj hse) (mkStr_ne_empty hipne)
        · rw [hsrc] at hse
          simp only [outerSender, outerSenderOfPayload, hm2, hjp]
          exact congrArg some hse
    | none =>
      cases hm3 : matchTransport cs with
      | some v =>
        obtain ⟨ip, port, p⟩ := v
        rw [processLine_trans hm3] at h
        obtain ⟨hdst, hsrc, _, _⟩ := transBranch_shape h
        obtain ⟨r1, _, hipne, _⟩ := matchTransport_struct hm3
        refine ⟨?_, ?_⟩
        · rw [hdst]
          cases hip : ip with
          | nil => exact absurd hip hipne
          | cons c0 ip' => exact mkStr_ne_empty (by simp)
        · intro hse
          rcases hsrc with hsrc | ⟨kvs, hjp, hsrc⟩
          · rw [hsrc] at hse
            exact absurd (Json.str.inj hse) (by decide)
          · rw [hsrc] at hse
            simp only [outerSender, outerSenderOfPayload, hm2, hm3, hjp]
            exact congrArg some hse
      | none =>
        cases hm4 : matchUdpLog cs with
        | some c =>
          rw [processLine_udp hm4] at h
          obtain ⟨hdst, hsrc, _, _⟩ := udpBranch_shape h
          obtain ⟨_, _, hlp, hra, hrp⟩ := matchUdpLog_struct hm4
          have hne1 : "localhost:" ++ String.mk c.localPort ≠ "" :=
            str_append_ne_empty_left _ (by decide)
          have hne2 : String.mk (c.remoteAddr ++ ':' :: c.remotePort) ≠ "" := by
            cases hcr : c.remoteAddr with
            | nil => exact absurd hcr hra
            | cons a as => exact mkStr_ne_empty (by simp)
          refine ⟨?_, ?_⟩
          · rw [hdst]
            split
            · exact hne1
            · exact hne2
          · intro hse
            rw [hsrc] at hse
            have hif := Json.str.inj hse
            split at hif
            · exact absurd hif hne2
            · exact absurd hif hne1
        | none =>
          rw [processLine_nomatch hm1 hm2 hm3 hm4] at h
          exact absurd h (by simp)

/-- C4 (amended).  Every record produced by `parse_log_file` has a non-empty
destination; its source is likewise non-empty unless some line's outer
payload explicitly supplies the empty string as its `sender` field. -/
theorem c4_source_destination (logs : List String) (recs : List Record)
    (h : parse_log_file logs = .ok recs) (r : Record) (hr : r ∈ recs) :
    r.destination ≠ "" ∧
      (r.source = Json.str "" →
        ∃ l ∈ logs, outerSender (stripChars l.toList) = some (Json.str "")) := by
  have hf := parseGo_ok logs [] recs h
  simp only [List.nil_append] at hf
  subst hf
  obtain ⟨l, hl, hlr⟩ := List.mem_filterMap.mp hr
  have hpl := lineRecord_some hlr
  obtain ⟨h1, h2⟩ := processLine_c4_core hpl
  exact ⟨h1, fun hse => ⟨l, hl, h2 hse⟩⟩

/-- C4 counterexample: an inbound-peer line whose payload supplies
`"sender": ""` yields a record with an empty source. -/
theorem c4_counterexample :
    parse_log_file ["node1: Received message from 1.2.3.4:80: \x7b\"sender\":\"\",\"message\":\"\x7b\x7d\"\x7d"] =
      .ok [⟨none, Json.str "", "node1", "P2P", Json.str "json",
        "\x7b\"sender\":\"\",\"message\":\"\x7b\x7d\"\x7d"⟩] := by
  decide

theorem c4_witness :
    c4wRec.destination ≠ "" ∧
      (c4wRec.source = Json.str "" →
        ∃ l ∈ ["node1: Sending message to node2: hi"],
          outerSender (stripChars l.toList) = some (Json.str "")) :=
  c4_source_destination ["node1: Sending message to node2: hi"] [c4wRec] (by decide)
    c4wRec (by decide)

/-- C5 (amended).  When structured decoding of the payload fails, the type
is the deterministic sentinel of the matching recognizer family (`text` for
the peer-message and transport lines, `UDP_DATA` for instrumented datagram
events); the type can be the empty string only when the payload itself
supplies an explicitly empty `type` field. -/
theorem c5_type_defaults (cs : List Char) (r : Record)
    (h : processLine cs = .ok (some r)) :
    (∀ s d p, matchSending cs = some (s, d, p) → jsonParse p = none → r.type = Json.str "text") ∧
    (∀ d ip p, matchReceived cs = some (d, ip, p) → jsonParse p = none → r.type = Json.str "text") ∧
    (∀ ip port p, matchTransport cs = some (ip, port, p) → jsonParse p = none → r.type = Json.str "text") ∧
    (∀ c, matchUdpLog cs = some c → jsonParse c.preview = none → r.type = Json.str "UDP_DATA") ∧
    (r.type = Json.str "" → extractedType cs = some (Json.str "")) := by
  refine ⟨?_, ?_, ?_, ?_, ?_⟩
  · intro s d p hm hj
    rw [processLine_send hm] at h
    exact (sendBranch_shape h).2.2.1 hj
  · intro d ip p hm hj
    rw [processLine_recv hm] at h
    exact ((recvBranch_shape h).2.2.1 hj).1
  · intro ip port p hm hj
    rw [processLine_trans hm] at h
    exact ((transBranch_shape h).2.2.1 hj).1
  · intro c hm hj
    rw [processLine_udp hm] at h
    exact (udpBranch_shape h).2.2.1 hj
  · intro hty
    cases hm1 : matchSending cs with
    | some v =>
      obtain ⟨s, d, p⟩ := v
      rw [processLine_send hm1] at h
      have hx := (sendBranch_shape h).2.2.2 hty
      simp only [extractedType, hm1]
      exact hx
    | none =>
      cases hm2 : matchReceived cs with
      | some v =>
        obtain ⟨d, ip, p⟩ := v
        rw [processLine_recv hm2] at h
        have hx := (recvBranch_shape h).2.2.2 hty
        simp only [extractedType, hm1, hm2]
        exact hx
      | none =>
        cases hm3 : matchTransport cs with
        | some v =>
          obtain ⟨ip, port, p⟩ := v
          rw [processLine_trans hm3] at h
          have hx := (transBranch_shape h).2.2.2 hty
          simp only [extractedType, hm1, hm2, hm3]
          exact hx
        | none =>
          cases hm4 : matchUdpLog cs with
          | some c =>
            rw [processLine_udp hm4] at h
            have hx := (udpBranch_shape h).2.2.2 hty
            simp only [extractedType, hm1, hm2, hm3, hm4]
            exact hx
          | none =>
            rw [processLine_nomatch hm1 hm2 hm3 hm4] at h
            exact absurd h (by simp)

/-- C5 counterexample: an outbound-peer line whose payload carries
`"type": ""` yields a record whose type is the empty string. -/
theorem c5_counterexample :
    parse_log_file ["node1: Sending message to node2: \x7b\"type\":\"\"\x7d"] =
      .ok [⟨none, Json.str "node1", "node2", "P2P", Json.str "",
        "\x7b\"type\":\"\"\x7d"⟩] := by
  decide

theorem c5_witness : c5wRec.type = Json.str "text" :=
  (c5_type_defaults (stripChars "node1: Sending message to node2: hi".toList) c5wRec
      (by decide)).1
    ['n', 'o', 'd', 'e', '1'] ['n', 'o', 'd', 'e', '2'] "hi".toList (by decide) (by decide)


theorem recvBranch_decode_fail (d ip p : List Char) (hj : jsonParse p = none) :
    recvBranch d ip p = .ok (some ⟨none, Json.str (String.mk ip), String.mk d, "P2P",
      Json.str "text", String.mk p⟩) := by
  unfold recvBranch
  rw [hj]

/-- C6.  For every inbound-peer line whose payload does not decode as
structured data, the produced record's source is the transport address
captured from the line and its type is the plain-text sentinel. -/
theorem c6_decode_fail_fallback (l : String) (d ip p : List Char)
    (hm : matchReceived (stripChars l.toList) = some (d, ip, p))
    (hj : jsonParse p = none) :
    parse_log_file [l] = .ok [⟨none, Json.str (String.mk ip), String.mk d, "P2P",
      Json.str "text", String.mk p⟩] := by
  have hp := processLine_recv hm
  rw [recvBranch_decode_fail d ip p hj] at hp
  simp only [String.toList] at hp
  simp [parse_log_file, parseGo, hp]

theorem c6_witness :
    parse_log_file ["node1: Received message from 9.9.9.9:1: hello"] =
      .ok [⟨none, Json.str "9.9.9.9", "node1", "P2P", Json.str "text", "hello"⟩] :=
  c6_decode_fail_fallback "node1: Received message from 9.9.9.9:1: hello"
    ['n', 'o', 'd', 'e', '1'] ['9', '.', '9', '.', '9', '.', '9'] "hello".toList
    (by decide) (by decide)

theorem recvBranch_sender (d ip : List Char) {p : List Char} {kvs ikvs : JMembers} {sIn : String}
    (ho : jsonParse p = some (Json.obj kvs))
    (hmsg : jsonGetLastD kvs "message" (Json.str "\x7b\x7d") = Json.str sIn)
    (hi : jsonParse sIn.toList = some (Json.obj ikvs)) :
    recvBranch d ip p = .ok (some ⟨none, jsonGetLastD kvs "sender" (Json.str "unknown"),
      String.mk d, "P2P", jsonGetLastD ikvs "type" (Json.str "json"), String.mk p⟩) := by
  simp only [recvBranch, ho, hmsg, hi]

/-- C3 (amended).  For every inbound-peer line whose payload decodes to an
object with a `sender` field of value X and whose `message` field (an
object-decoding string, `'{}'` when absent) passes the inner decode, the
record's source is X, not the transport address. -/
theorem c3_sender_extraction (l : String) (d ip p : List Char) (kvs ikvs : JMembers)
    (sIn : String) (X : Json)
    (hm : matchReceived (stripChars l.toList) = some (d, ip, p))
    (ho : jsonParse p = some (Json.obj kvs))
    (hs : jsonGetLast kvs "sender" = some X)
    (hmsg : jsonGetLastD kvs "message" (Json.str "\x7b\x7d") = Json.str sIn)
    (hi : jsonParse sIn.toList = some (Json.obj ikvs)) :
    parse_log_file [l] = .ok [⟨none, X, String.mk d, "P2P",
      jsonGetLastD ikvs "type" (Json.str "json"), String.mk p⟩] := by
  have hsender : jsonGetLastD kvs "sender" (Json.str "unknown") = X := by
    unfold jsonGetLastD
    rw [hs]
    rfl
  have hp := processLine_recv hm
  rw [recvBranch_sender d ip ho hmsg hi, hsender] at hp
  simp only [String.toList] at hp
  simp [parse_log_file, parseGo, hp]

/-- C3 counterexample: the outer payload is valid structured data with
`sender: "node1"`, but its `message` field is not decodable, so the code
falls back to the transport address `10.0.0.5`. -/
theorem c3_counterexample :
    parse_log_file ["node2: Received message from 10.0.0.5:4000: \x7b\"sender\":\"node1\",\"message\":\"notjson\"\x7d"] =
      .ok [⟨none, Json.str "10.0.0.5", "node2", "P2P", Json.str "text",
        "\x7b\"sender\":\"node1\",\"message\":\"notjson\"\x7d"⟩] ∧
    Json.str "10.0.0.5" ≠ Json.str "node1" :=
  ⟨by decide, by decide⟩

theorem c3_witness :
    parse_log_file ["node2: Received message from 10.0.0.5:4000: \x7b\"sender\":\"node8\",\"message\":\"\x7b\\\"type\\\":\\\"ack\\\"\x7d\"\x7d"] =
      .ok [⟨none, Json.str "node8", "node2", "P2P", Json.str "ack",
        "\x7b\"sender\":\"node8\",\"message\":\"\x7b\\\"type\\\":\\\"ack\\\"\x7d\"\x7d"⟩] :=
  c3_sender_extraction
    "node2: Received message from 10.0.0.5:4000: \x7b\"sender\":\"node8\",\"message\":\"\x7b\\\"type\\\":\\\"ack\\\"\x7d\"\x7d"
    ['n', 'o', 'd', 'e', '2'] ['1', '0', '.', '0', '.', '0', '.', '5']
    "\x7b\"sender\":\"node8\",\"message\":\"\x7b\\\"type\\\":\\\"ack\\\"\x7d\"\x7d".toList
    (JMembers.ofList [("sender", Json.str "node8"),
      ("message", Json.str "\x7b\"type\":\"ack\"\x7d")])
    (JMembers.ofList [("type", Json.str "ack")])
    "\x7b\"type\":\"ack\"\x7d" (Json.str "node8")
    (by decide) (by decide) (by decide) (by decide) (by decide)

/-- C7.  For every input line sequence on which `parse_log_file` returns,
the records are exactly the per-line contributions in input order: no
reordering, no drop after a match, no deduplication. -/
theorem c7_order_preserved (logs : List String) (recs : List Record)
    (h : parse_log_file logs = .ok recs) :
    recs = logs.filterMap lineRecord := by
  simpa using parseGo_ok logs [] recs h

theorem c7_witness :
    [(⟨none, Json.str "node1", "node2", "P2P", Json.str "text", "hi"⟩ : Record)] =
      ["unrecognized line", "node1: Sending message to node2: hi"].filterMap lineRecord :=
  c7_order_preserved ["unrecognized line", "node1: Sending message to node2: hi"]
    [⟨none, Json.str "node1", "node2", "P2P", Json.str "text", "hi"⟩] (by decide)

/-- C8.  Every renderer terminates on the empty record sequence with its
valid empty-state output and no exception. -/
theorem c8_renderers_empty :
    print_wireshark_style [] = (["No logs to display."], none) ∧
    generate_sequence_diagram_plantuml [] = .ok "@startuml\nskinparam monochrome true\n\n@enduml" ∧
    generate_activity_diagram_plantuml [] = .ok "@startuml\nskinparam monochrome true\nstart\nstop\n@enduml" ∧
    generate_state_diagram_plantuml [] = .ok "" ∧
    generate_ascii_sequence_diagram [] = .ok "ASCII Sequence Diagram:\n-----------------------\n\n\n-----------------------" ∧
    generate_ascii_activity_flow [] = .ok "ASCII Activity Flow:\n---------------------\n---------------------" ∧
    generate_ascii_state_flow [] = .ok "ASCII State Flow (per participant):\n-----------------------------------\n-----------------------------------" :=
  ⟨rfl, rfl, rfl, rfl, rfl, rfl, rfl⟩

/-- C9.  The four recognizer grammars are mutually exclusive: on every
line, at most one matcher succeeds, so a line contributes at most one
record regardless of the order the recognizers are tried in. -/
theorem c9_recognizers_mutually_exclusive (cs : List Char) :
    ((matchSending cs).isSome →
      matchReceived cs = none ∧ matchTransport cs = none ∧ matchUdpLog cs = none) ∧
    ((matchReceived cs).isSome →
      matchSending cs = none ∧ matchTransport cs = none ∧ matchUdpLog cs = none) ∧
    ((matchTransport cs).isSome →
      matchSending cs = none ∧ matchReceived cs = none ∧ matchUdpLog cs = none) ∧
    ((matchUdpLog cs).isSome →
      matchSending cs = none ∧ matchReceived cs = none ∧ matchTransport cs = none) := by
  refine ⟨?_, ?_, ?_, ?_⟩
  · intro hs
    obtain ⟨x, hx⟩ := Option.isSome_iff_exists.mp hs
    have hn := matchSending_head hx
    exact ⟨matchReceived_none_of_sending hx,
           matchTransport_none_of_head (Or.inl hn),
           matchUdpLog_none_of_head (Or.inl hn)⟩
  · intro hs
    obtain ⟨x, hx⟩ := Option.isSome_iff_exists.mp hs
    have hn := matchReceived_head hx
    exact ⟨matchSending_none_of_received hx,
           matchTransport_none_of_head (Or.inl hn),
           matchUdpLog_none_of_head (Or.inl hn)⟩
  · intro hs
    obtain ⟨x, hx⟩ := Option.isSome_iff_exists.mp hs
    have hU := matchTransport_head hx
    exact ⟨matchSending_none_of_head (Or.inl hU),
           matchReceived_none_of_head (Or.inl hU),
           matchUdpLog_none_of_head (Or.inr hU)⟩
  · intro hs
    obtain ⟨x, hx⟩ := Option.isSome_iff_exists.mp hs
    have hB := matchUdpLog_head hx
    exact ⟨matchSending_none_of_head (Or.inr hB),
           matchReceived_none_of_head (Or.inr hB),
           matchTransport_none_of_head (Or.inr hB)⟩

theorem c9_witness :
    matchReceived "node1: Sending message to node2: hi".toList = none ∧
    matchTransport "node1: Sending message to node2: hi".toList = none ∧
    matchUdpLog "node1: Sending message to node2: hi".toList = none :=
  (c9_recognizers_mutually_exclusive "node1: Sending message to node2: hi".toList).1 (by decide)

/-- C10.  The peer-message recognizers accept only `node<digits>`
participant names, and a peer-shaped line with any other name (such as
`alice: Sending message to bob: hi`) contributes no record. -/
theorem c10_node_names_only (cs : List Char) :
    (∀ s d p, matchSending cs = some (s, d, p) → isNodeName s = true ∧ isNodeName d = true) ∧
    (∀ d ip p, matchReceived cs = some (d, ip, p) → isNodeName d = true) ∧
    parse_log_file ["alice: Sending message to bob: hi"] = .ok [] := by
  refine ⟨?_, ?_, by decide⟩
  · intro s d p h
    obtain ⟨r1, r2, r3, hn1, _, hn2, _⟩ := matchSending_struct h
    exact ⟨isNodeName_of_matchNodeName hn1, isNodeName_of_matchNodeName hn2⟩
  · intro d ip p h
    obtain ⟨r1, r2, hn1, _, _, _⟩ := matchReceived_struct h
    exact isNodeName_of_matchNodeName hn1

theorem c10_witness :
    isNodeName ['n', 'o', 'd', 'e', '1'] = true ∧ isNodeName ['n', 'o', 'd', 'e', '2'] = true :=
  (c10_node_names_only "node1: Sending message to node2: hi".toList).1
    ['n', 'o', 'd', 'e', '1'] ['n', 'o', 'd', 'e', '2'] "hi".toList (by decide)

/-- C1 counterexample: on the spec's four round-trip lines the parser
yields three records, not four (the `[UDP_LOG]` line carries its remote
address and port in separate brackets, which the fourth recognizer does
not accept), and the tabular renderer never reports `Total Packets: 4`. -/
theorem c1_counterexample :
    (parse_log_file c1Lines).toOption.map List.length = some 3 ∧
    "Total Packets: 4" ∉ (print_wireshark_style c1Records).1 :=
  ⟨by decide, by decide⟩

/-- C1 (amended).  On the spec's four round-trip lines, `parse_log_file`
yields exactly three records typed `gossip`, `ack`, `auth` in order (the
`[UDP_LOG]` line matches no recognizer and is dropped), and
`print_wireshark_style` on them prints the header and separator and then
raises `KeyError` (the first record has no timestamp), reporting no
packet total. -/
theorem c1_round_trip :
    parse_log_file c1Lines = .ok c1Records ∧
    c1Records.map Record.type = [Json.str "gossip", Json.str "ack", Json.str "auth"] ∧
    print_wireshark_style c1Records = ([wsHeader, dash140], some PyErr.keyError) :=
  ⟨by decide, by decide, by decide⟩

/-- C2 counterexample: on a one-record sequence whose record has no
timestamp, the tabular renderer prints no row for it and raises `KeyError`
instead of displaying time 0. -/
theorem c2_counterexample :
    print_wireshark_style [c2NoTsRecord] = ([wsHeader, dash140], some PyErr.keyError) := by
  decide

theorem wsRows_total (start : Nat) : ∀ l : List Record,
    (∀ r ∈ l, r.timestamp.isSome ∧ (fmtPad r.source 25).isSome ∧ (fmtPad r.type 15).isSome) →
    (wsRows start l).1 = l.map (fun r => (wsRowOf start r).getD "") ∧
      (wsRows start l).2.2.2 = none
  | [], _ => ⟨rfl, rfl⟩
  | r :: rs, h => by
    obtain ⟨ht, hs, hy⟩ := h r (List.mem_cons_self _ _)
    obtain ⟨t, ht'⟩ := Option.isSome_iff_exists.mp ht
    obtain ⟨srcS, hs'⟩ := Option.isSome_iff_exists.mp hs
    obtain ⟨tyS, hy'⟩ := Option.isSome_iff_exists.mp hy
    obtain ⟨ih1, ih2⟩ := wsRows_total start rs (fun x hx => h x (List.mem_cons_of_mem _ hx))
    rcases hrec : wsRows start rs with ⟨rows, i, o, e⟩
    rw [hrec] at ih1 ih2
    simp only [] at ih1 ih2
    subst ih1
    subst ih2
    unfold wsRows
    rw [ht', hs', hy', hrec]
    simp [wsRowOf, ht', hs', hy']

/-- C2 (amended).  On every non-empty record sequence in which each record
has a timestamp (and a printable source and type), the tabular renderer
prints exactly one row per record, in order, each row's displayed time
being that record's timestamp offset from the first record's timestamp; a
record without a timestamp instead raises `KeyError` (there is no `0`
fallback). -/
theorem c2_rows_per_record (r0 : Record) (rs : List Record)
    (h : ∀ r ∈ r0 :: rs, r.timestamp.isSome ∧ (fmtPad r.source 25).isSome ∧
      (fmtPad r.type 15).isSome) :
    ∃ t0 rest, r0.timestamp = some t0 ∧
      (print_wireshark_style (r0 :: rs)).1 =
        [wsHeader, dash140] ++ (r0 :: rs).map (fun r => (wsRowOf t0 r).getD "") ++ rest ∧
      (print_wireshark_style (r0 :: rs)).2 = none := by
  obtain ⟨ht, _, _⟩ := h r0 (List.mem_cons_self _ _)
  obtain ⟨t0, ht'⟩ := Option.isSome_iff_exists.mp ht
  obtain ⟨hrows, hnone⟩ := wsRows_total t0 (r0 :: rs) h
  rcases hw : wsRows t0 (r0 :: rs) with ⟨rows, i, o, e⟩
  rw [hw] at hrows hnone
  simp only [] at hrows hnone
  subst hrows
  subst hnone
  refine ⟨t0, ["\n" ++ eq140,
      "Total Packets: " ++ toString (r0 :: rs).length,
      "Incoming Packets: " ++ toString i,
      "Outgoing Packets: " ++ toString o,
      eq140,
      "\n" ++ "Time Plot (Relative Seconds):",
      dash140] ++ timelineRows t0 (r0 :: rs) ++ [dash140], ht', ?_, ?_⟩
  · unfold print_wireshark_style
    simp only []
    rw [ht']
    simp only []
    rw [hw]
    simp [List.append_assoc]
  · unfold print_wireshark_style
    simp only []
    rw [ht']
    simp only []
    rw [hw]

theorem c2_witness :
    ∃ t0 rest, c2wRec1.timestamp = some t0 ∧
      (print_wireshark_style (c2wRec1 :: [c2wRec2])).1 =
        [wsHeader, dash140] ++ (c2wRec1 :: [c2wRec2]).map (fun r => (wsRowOf t0 r).getD "") ++ rest ∧
      (print_wireshark_style (c2wRec1 :: [c2wRec2])).2 = none :=
  c2_rows_per_record c2wRec1 [c2wRec2] (by decide)
